import Mathlib

/-!
coredns-a2cname: zone matching, upstream resolution, address transformation,
CNAME synthesis.

A shallow embedding of `plugin/coredns-a2cname/coredns-a2cname.go`.

Modelling conventions.

* A Go `string` is a Lean `String`, read as its sequence of characters
  (`String.data`).  The Go standard-library functions the plugin calls
  (`strings.HasSuffix`, `strings.ToLower`, `strings.ReplaceAll`, `fmt.Sprintf`
  with `%s%s`) are defined below on that sequence.  `strings.ToLower` is the
  ASCII case fold (`A`..`Z` to `a`..`z`); DNS names in presentation format are
  ASCII, and on ASCII input this is what Go computes.  A match compares
  characters, which for well-formed strings agrees with Go's comparison of bytes.
* `uint16`/`int` protocol constants are natural numbers.
* The address of an A record is a `net.IP`, a byte slice of any length (nil
  when the record arrives without rdata); `net.IP.String()` is defined on all
  of them.
* The network exchange of `resolveUpstream` is a parameter: a function from the
  question name and the upstream address to what `dns.Client.Exchange` returns.
* The response writer is the list of messages passed to `WriteMsg`, oldest first.
* Logging (`log.Debugf`, `log.Errorf`) changes neither the response writer nor
  the return value and is left out.
* The configuration read through the `caddy.Controller` is the list of the
  directive instances, each with the arguments on its line and the token lines
  of its block.  Parse errors carry their message without the file and line
  the controller puts in front.
-/

namespace A2cname

/-! ## Go strings -/

/-- Go `strings.HasSuffix(s, suffix)`:
`len(s) >= len(suffix) && s[len(s)-len(suffix):] == suffix`. -/
def HasSuffix (s suffix : String) : Bool :=
  decide (s.data.length ≥ suffix.data.length) &&
    decide (s.data.drop (s.data.length - suffix.data.length) = suffix.data)

/-- Go `unicode.ToLower` on the ASCII range: `A`..`Z` go to `a`..`z`, every
other character is unchanged. -/
def toLowerRune (c : Char) : Char := c.toLower

/-- Go `strings.ToLower(s)`: the case fold applied to every character. -/
def ToLower (s : String) : String := ⟨s.data.map toLowerRune⟩

/-- Go `strings.ReplaceAll(s, old, new)` for a non-empty `old`: scanning left
to right, every non-overlapping occurrence of `old` is replaced by `new`.  The
counter is the number of characters of the occurrence just matched that are
still to be skipped. -/
def replaceAllAux (old new : List Char) : Nat → List Char → List Char
  | _, [] => []
  | skip + 1, _ :: s => replaceAllAux old new skip s
  | 0, c :: s =>
    if old.isPrefixOf (c :: s) then
      new ++ replaceAllAux old new (old.length - 1) s
    else
      c :: replaceAllAux old new 0 s

/-- Go `strings.ReplaceAll(s, old, new)`.  With an empty `old` Go inserts `new`
before every character and at the end of `s`. -/
def ReplaceAll (s old new : String) : String :=
  if old.data = [] then
    ⟨new.data ++ s.data.flatMap (fun c => c :: new.data)⟩
  else
    ⟨replaceAllAux old.data new.data 0 s.data⟩

/-- Go `fmt.Sprintf("%s%s", a, b)`: the two strings concatenated. -/
def Sprintf_s_s (a b : String) : String := a ++ b

/-! ## DNS messages (the parts of `github.com/miekg/dns` the plugin touches) -/

/-- Protocol value `dns.TypeA`. -/
def TypeA : Nat := 1
/-- Protocol value `dns.TypeCNAME`. -/
def TypeCNAME : Nat := 5
/-- Protocol value `dns.ClassINET`. -/
def ClassINET : Nat := 1
/-- Protocol value `dns.OpcodeQuery`. -/
def OpcodeQuery : Nat := 0
/-- Protocol value `dns.RcodeSuccess`. -/
def RcodeSuccess : Nat := 0
/-- Protocol value `dns.RcodeServerFailure`. -/
def RcodeServerFailure : Nat := 2

/-- One entry of the question section, `dns.Question`. -/
structure Question where
  Name : String
  Qtype : Nat
  Qclass : Nat
  deriving DecidableEq, Repr

/-- Record header `dns.RR_Header`. -/
structure RR_Header where
  Name : String
  Rrtype : Nat
  Class : Nat
  Ttl : Nat
  Rdlength : Nat := 0
  deriving DecidableEq, Repr

/-- Four octets, an IPv4 address. -/
structure IPv4 where
  o1 : Fin 256
  o2 : Fin 256
  o3 : Fin 256
  o4 : Fin 256
  deriving DecidableEq, Repr

/-- The dotted-decimal text of four octets, the IPv4 branch of Go
`net.IP.String()`. -/
def IPv4.String (a : IPv4) : String :=
  Nat.repr a.o1.val ++ "." ++ Nat.repr a.o2.val ++ "." ++
    Nat.repr a.o3.val ++ "." ++ Nat.repr a.o4.val

/-- Go `net.IP`: a byte slice of any length.  The nil slice is the empty list;
the DNS library leaves the address of an A record nil when the record arrives
with RDLENGTH 0. -/
abbrev IP := List (Fin 256)

/-- The lower-case hexadecimal digit of a number below 16. -/
def hexDigit (n : Nat) : Char := "0123456789abcdef".data.getD n '0'

/-- Go `hexString` of package `net`: two hexadecimal digits per byte. -/
def hexString (b : List (Fin 256)) : List Char :=
  b.flatMap (fun x => [hexDigit (x.val / 16), hexDigit (x.val % 16)])

/-- Go `appendHex` of package `net/netip`: a 16-bit group in hexadecimal
without leading zeros. -/
def appendHex (x : Nat) : List Char :=
  (if x ≥ 0x1000 then [hexDigit (x / 0x1000)] else []) ++
    (if x ≥ 0x100 then [hexDigit (x / 0x100 % 16)] else []) ++
    (if x ≥ 0x10 then [hexDigit (x / 0x10 % 16)] else []) ++
    [hexDigit (x % 16)]

/-- The 16-bit group number `i` of a 16-byte address, `v6u16`. -/
def v6u16 (ip : IP) (i : Nat) : Nat :=
  (ip.getD (2 * i) 0).val * 256 + (ip.getD (2 * i + 1) 0).val

/-- The number of zero groups from group `i` on, for at most `fuel` groups. -/
def zeroRun (ip : IP) : Nat → Nat → Nat
  | 0, _ => 0
  | fuel + 1, i => if i < 8 ∧ v6u16 ip i = 0 then zeroRun ip fuel (i + 1) + 1 else 0

/-- The first loop of the IPv6 text form: the earliest longest run of at least
two zero groups, as `(zeroStart, zeroEnd)`, and `(255, 255)` without one. -/
def longestZeroRun (ip : IP) : Nat × Nat :=
  (List.range 8).foldl
    (fun best i =>
      let l := zeroRun ip 8 i
      if l ≥ 2 ∧ l > best.2 - best.1 then (i, i + l) else best)
    (255, 255)

/-- The second loop of the IPv6 text form from group `i` on: the groups in
hexadecimal separated by colons, the zero run written `::`.  Every step
moves to a later group, so eight steps reach the end. -/
def string16Loop (ip : IP) (zeroStart zeroEnd : Nat) : Nat → Nat → List Char
  | 0, _ => []
  | fuel + 1, i =>
    if i ≥ 8 then []
    else if i = zeroStart then
      if zeroEnd ≥ 8 then [':', ':']
      else
        [':', ':'] ++ appendHex (v6u16 ip zeroEnd) ++
          string16Loop ip zeroStart zeroEnd fuel (zeroEnd + 1)
    else
      (if i > 0 then [':'] else []) ++ appendHex (v6u16 ip i) ++
        string16Loop ip zeroStart zeroEnd fuel (i + 1)

/-- Go `net.IP.To4()`: the four bytes of a 4-byte address or of a 16-byte
IPv4-mapped address, nil otherwise. -/
def IP.To4 (ip : IP) : IP :=
  if ip.length = 4 then ip
  else if ip.length = 16 ∧ (ip.take 10).all (fun b => b.val = 0) ∧
      (ip.getD 10 0).val = 0xff ∧ (ip.getD 11 0).val = 0xff then
    ip.drop 12
  else []

/-- Go `net.IP.String()`: `<nil>` for the empty slice, `?` and the bytes in
hexadecimal for a length other than 4 and 16, dotted decimal for an IPv4
address (also an IPv4-mapped one), the IPv6 text form otherwise. -/
def IP.String (ip : IP) : String :=
  if ip.length = 0 then "<nil>"
  else if ip.length ≠ 4 ∧ ip.length ≠ 16 then ⟨'?' :: hexString ip⟩
  else
    match ip.To4 with
    | [a, b, c, d] => IPv4.String ⟨a, b, c, d⟩
    | _ => ⟨string16Loop ip (longestZeroRun ip).1 (longestZeroRun ip).2 8 0⟩

/-- A resource record `dns.RR`, by its dynamic Go type: `*dns.A`, `*dns.CNAME`,
or any other record type (only its header is kept). -/
inductive RR where
  | A (Hdr : RR_Header) (A : IP)
  | CNAME (Hdr : RR_Header) (Target : String)
  | other (Hdr : RR_Header)
  deriving DecidableEq, Repr

/-- The Go type assertion `rr.(*dns.A)` succeeds. -/
def RR.isA : RR → Bool
  | .A _ _ => true
  | _ => false

/-- A DNS message `dns.Msg`: the header bits, then the four sections.  The
defaults are Go's zero values, so `{}` is `new(dns.Msg)`. -/
structure Msg where
  Id : Nat := 0
  Response : Bool := false
  Opcode : Nat := 0
  Authoritative : Bool := false
  Truncated : Bool := false
  RecursionDesired : Bool := false
  RecursionAvailable : Bool := false
  Zero : Bool := false
  AuthenticatedData : Bool := false
  CheckingDisabled : Bool := false
  Rcode : Nat := 0
  Compress : Bool := false
  Question : List Question := []
  Answer : List RR := []
  Ns : List RR := []
  Extra : List RR := []
  deriving DecidableEq, Repr

/-- Modelled from the spec: `(*dns.Msg).SetReply` belongs to the DNS library and
is not under `src/`.  The spec asks for "a reply message ... in reply to the
original query"; the library does it by copying the id, the opcode and (for a
standard query) the rd and cd bits, setting the response bit and rcode
success, and copying the first question. -/
def Msg.SetReply (m request : Msg) : Msg :=
  let m := { m with Id := request.Id, Response := true, Opcode := request.Opcode }
  let m := if m.Opcode = OpcodeQuery then
      { m with RecursionDesired := request.RecursionDesired,
               CheckingDisabled := request.CheckingDisabled }
    else m
  let m := { m with Rcode := RcodeSuccess }
  match request.Question with
  | [] => m
  | q :: _ => { m with Question := [q] }

/-- A Go `error` value, identified by its message. -/
structure GoError where
  msg : String
  deriving DecidableEq, Repr

/-- The state of a `dns.ResponseWriter`: the messages handed to `WriteMsg`,
oldest first. -/
abbrev ResponseWriter := List Msg

/-- Go `w.WriteMsg(resp)`. -/
def WriteMsg (w : ResponseWriter) (resp : Msg) : ResponseWriter := w ++ [resp]

/-- The `ServeDNS` method of a `plugin.Handler`: from the writer and the request
to the writer afterwards and the returned `(int, error)`. -/
abbrev Handler := ResponseWriter → Msg → ResponseWriter × Nat × Option GoError

/-- What `dns.Client.Exchange` returns for a type-A question on a name sent to
an upstream address: a transport error or a response message. -/
abbrev Exchange := String → String → Except GoError Msg

/-- Modelled from the spec: `plugin.NextOrFailure` belongs to the host framework
and is not under `src/`.  It "delegates handling to the next handler in the
chain ..., returning whatever status/error that handler produces; if no next
handler exists, this is the terminal failure-forwarding path defined by the
host framework" (server failure and a "no next plugin found" error). -/
def NextOrFailure (name : String) (next : Option Handler) (w : ResponseWriter) (r : Msg) :
    ResponseWriter × Nat × Option GoError :=
  match next with
  | some h => h w r
  | none => (w, RcodeServerFailure, some ⟨"plugin/" ++ name ++ ": no next plugin found"⟩)

/-! ## The plugin -/

/-- The plugin instance, `IpToCname`. -/
structure IpToCname where
  Next : Option Handler := none
  Zones : List String := []
  TargetSuffix : String := ""
  Upstream : String := ""

/-- The plugin name, `Name`. -/
def IpToCname.Name (_ : IpToCname) : String := "coredns-a2cname"

/-- The loop of `matchesZone` over the remaining zones. -/
def matchesZoneLoop (qname : String) : List String → Bool
  | [] => false
  | zone :: rest =>
    if HasSuffix (ToLower qname) (ToLower zone) then true
    else matchesZoneLoop qname rest

/-- The method `matchesZone`: does the query name match any configured zone. -/
def matchesZone (i : IpToCname) (qname : String) : Bool :=
  matchesZoneLoop qname i.Zones

/-- The loop of `resolveUpstream` over the answer section, with the return
after it: the first `*dns.A` wins, otherwise "no A record found". -/
def resolveUpstreamLoop : List RR → String × Option GoError
  | [] => ("", some ⟨"no A record found"⟩)
  | .A _ a :: _ => (a.String, none)
  | _ :: rest => resolveUpstreamLoop rest

/-- The method `resolveUpstream`: one type-A exchange for `qname` with the
configured upstream, returning Go's `(string, error)`. -/
def resolveUpstream (i : IpToCname) (exchange : Exchange) (qname : String) :
    String × Option GoError :=
  match exchange qname i.Upstream with
  | .error err => ("", some err)
  | .ok resp =>
    if resp.Rcode ≠ RcodeSuccess then
      ("", some ⟨"DNS query failed with rcode: " ++ Nat.repr resp.Rcode⟩)
    else
      resolveUpstreamLoop resp.Answer

/-- The method `transformIP`: dots to dashes, then the suffix, then a final
dot unless there is one already. -/
def transformIP (i : IpToCname) (ip : String) : String :=
  let transformed := ReplaceAll ip "." "-"
  let result := Sprintf_s_s transformed i.TargetSuffix
  if !HasSuffix result "." then result ++ "." else result

/-- What `ServeDNS` does itself before it returns: either it writes a message
and returns a status code with a nil error, or it returns the result of
`plugin.NextOrFailure` on a request. -/
inductive Action where
  | writeMsg (resp : Msg) (rcode : Nat)
  | nextOrFailure (r : Msg)
  deriving DecidableEq, Repr

/-- The body of `ServeDNS`, up to the point where it either writes its own
answer or hands over to `plugin.NextOrFailure`. -/
def ServeDNS_action (i : IpToCname) (exchange : Exchange) (r : Msg) : Action :=
  match r.Question with
  | [] => .nextOrFailure r
  | q :: _ =>
    if q.Qtype ≠ TypeA then .nextOrFailure r
    else
      let qname := q.Name
      if !matchesZone i qname then .nextOrFailure r
      else
        match resolveUpstream i exchange qname with
        | (_, some _) => .nextOrFailure r
        | (ip, none) =>
          let targetDomain := transformIP i ip
          let resp : Msg := Msg.SetReply {} r
          let resp := { resp with Authoritative := true }
          let cname := RR.CNAME
            { Name := qname, Rrtype := TypeCNAME, Class := ClassINET, Ttl := 60 }
            targetDomain
          let resp := { resp with Answer := resp.Answer ++ [cname] }
          .writeMsg resp RcodeSuccess

/-- The method `ServeDNS` on a writer state: the action is carried out. -/
def ServeDNS (i : IpToCname) (exchange : Exchange) (w : ResponseWriter) (r : Msg) :
    ResponseWriter × Nat × Option GoError :=
  match ServeDNS_action i exchange r with
  | .writeMsg resp rcode => (WriteMsg w resp, rcode, none)
  | .nextOrFailure req => NextOrFailure i.Name i.Next w req

/-! ## Configuration -/

/-- One instance of the directive in the configuration, as `parseConfig` reads it
through the `caddy.Controller`: the arguments on the line of the directive, and
the lines of its block, each line being its tokens (no braces among them). -/
structure Directive where
  args : List String := []
  block : List (List String) := []
  deriving DecidableEq, Repr

/-- The error of `c.ArgErr()` after the token `val`, without the file and line
the controller puts in front. -/
def ArgErr (val : String) : GoError :=
  ⟨"Wrong argument count or unexpected line ending after '" ++ val ++ "'"⟩

/-- The inner loop `for c.NextBlock()` of `parseConfig` along one line of the
block: `c.NextBlock()` moves to the next token, `c.NextArg()` only to a
further token on the same line. -/
def parseBlockLine (i : IpToCname) : List String → Except GoError IpToCname
  | [] => .ok i
  | [key] =>
    if key = "target_suffix" then .error (ArgErr key)
    else if key = "upstream" then .error (ArgErr key)
    else .error ⟨"unknown property '" ++ key ++ "'"⟩
  | key :: val :: rest =>
    if key = "target_suffix" then parseBlockLine { i with TargetSuffix := val } rest
    else if key = "upstream" then parseBlockLine { i with Upstream := val } rest
    else .error ⟨"unknown property '" ++ key ++ "'"⟩

/-- The inner loop `for c.NextBlock()` of `parseConfig` over the lines of a
block. -/
def parseBlock (i : IpToCname) : List (List String) → Except GoError IpToCname
  | [] => .ok i
  | line :: rest =>
    match parseBlockLine i line with
    | .error err => .error err
    | .ok i2 => parseBlock i2 rest

/-- The outer loop `for c.Next()` of `parseConfig` over the directive
instances. -/
def parseConfigLoop (i : IpToCname) : List Directive → Except GoError IpToCname
  | [] => .ok i
  | d :: rest =>
    let args := d.args
    let i1 := if args.length > 0 then { i with Zones := args } else i
    match parseBlock i1 d.block with
    | .error err => .error err
    | .ok i2 => parseConfigLoop i2 rest

/-- The function `parseConfig`: Go's `(*IpToCname, error)` as a result that is
either the error or the instance. -/
def parseConfig (c : List Directive) : Except GoError IpToCname :=
  let i : IpToCname :=
    { TargetSuffix := "-via-9.shark-perch.ts.net", Upstream := "100.100.100.100:53" }
  match parseConfigLoop i c with
  | .error err => .error err
  | .ok i2 =>
    if i2.Zones.length = 0 then .error ⟨"no zones specified"⟩
    else .ok i2

/-! ## Definitions used to state the properties -/

/-- The configured instance of the examples: the default target suffix and
upstream of `parseConfig`, with the given zones. -/
def cfg (zones : List String) : IpToCname :=
  { Zones := zones, TargetSuffix := "-via-9.shark-perch.ts.net",
    Upstream := "100.100.100.100:53" }

/-- An upstream that answers every question with the given message. -/
def answering (resp : Msg) : Exchange := fun _ _ => .ok resp

/-- An upstream that fails every exchange with the given error. -/
def failing (err : GoError) : Exchange := fun _ _ => .error err

/-- A type-A record for `name` with address `10.0.123.45`. -/
def sampleA (name : String) : RR :=
  .A { Name := name, Rrtype := TypeA, Class := ClassINET, Ttl := 300 } [10, 0, 123, 45]

/-- An answer section with a CNAME record, then the A record `10.0.123.45`,
then the A record `10.9.9.9`. -/
def sampleAnswer : List RR :=
  [.CNAME { Name := "foo.example.com.", Rrtype := TypeCNAME, Class := ClassINET, Ttl := 30 }
      "bar.example.com.",
   sampleA "bar.example.com.",
   .A { Name := "bar.example.com.", Rrtype := TypeA, Class := ClassINET, Ttl := 30 }
      [10, 9, 9, 9]]

/-- A request with a single question. -/
def query (name : String) (qtype : Nat) : Msg :=
  { Id := 4711, RecursionDesired := true,
    Question := [{ Name := name, Qtype := qtype, Qclass := ClassINET }] }

/-- The query name lies under the zone on a label boundary (in lower case):
it is the zone itself or ends with a dot followed by the zone. -/
def underZone (qname zone : String) : Bool :=
  decide (ToLower qname = ToLower zone) || HasSuffix (ToLower qname) ("." ++ ToLower zone)

/-- The upstream outcome yields an A record: it is a response with rcode
success whose answer section holds at least one A record. -/
def yieldsA : Except GoError Msg → Bool
  | .ok up => decide (up.Rcode = RcodeSuccess) && up.Answer.any RR.isA
  | .error _ => false

/-- The zone pattern starts with the wildcard marker `*.`. -/
def isWildcard (zone : String) : Bool := "*.".data.isPrefixOf zone.data

/-- Two characters are the same letter up to case: they are equal, or one is
an upper-case letter `A`..`Z` and the other the lower-case letter 32 code
points above it. -/
def sameLetter (c d : Char) : Bool :=
  decide (c = d) ||
    decide (65 ≤ c.toNat ∧ c.toNat ≤ 90 ∧ d.toNat = c.toNat + 32) ||
    decide (65 ≤ d.toNat ∧ d.toNat ≤ 90 ∧ c.toNat = d.toNat + 32)

/-- Two character sequences have the same length and the same letters up to
case at every position. -/
def sameLetters : List Char → List Char → Bool
  | [], [] => true
  | c :: cs, d :: ds => sameLetter c d && sameLetters cs ds
  | _, _ => false

/-- Two strings differ only in letter case. -/
def differOnlyInCase (a b : String) : Bool := sameLetters a.data b.data

/-- The name is a strict subdomain of the zone (in lower case): it ends with a
dot followed by the zone, with at least one character in front. -/
def strictSubdomain (qname zone : String) : Bool :=
  HasSuffix (ToLower qname) ("." ++ ToLower zone) &&
    decide (qname.data.length > zone.data.length + 1)

/-- The reference matcher of the spec, the "true prefix-stripped subdomain"
approach: a wildcard pattern `*.Z` matches exactly the strict subdomains of
`Z`; a plain pattern `Z` matches `Z` and its subdomains. -/
def referenceMatches (pattern qname : String) : Bool :=
  if isWildcard pattern then strictSubdomain qname ⟨pattern.data.drop 2⟩
  else decide (ToLower qname = ToLower pattern) || strictSubdomain qname pattern

/-- The (pattern, name) pairs of the test table `TestMatchesZone` with a
single zone. -/
def testTable : List (String × String) :=
  [("*.example.com.", "foo.example.com."), ("*.example.com.", "example.com."),
   ("*.example.com.", "baz.foo.example.com."), ("*.example.com.", "other.com."),
   ("example.com.", "foo.example.com."), ("example.com.", "example.com."),
   ("example.com.", "other.com.")]

/-- The replacement of dots by dashes on one character. -/
def dotToDash (c : Char) : Char := if c = '.' then '-' else c

/-! ## Lemmas on the string functions -/

theorem HasSuffix_iff (s t : String) : HasSuffix s t = true ↔ t.data <:+ s.data := by
  unfold HasSuffix
  rw [Bool.and_eq_true, decide_eq_true_iff, decide_eq_true_iff]
  constructor
  · rintro ⟨_, h⟩
    exact ⟨s.data.take (s.data.length - t.data.length),
      (congrArg (_ ++ ·) h).symm.trans (List.take_append_drop _ _)⟩
  · intro h
    exact ⟨h.length_le, (List.suffix_iff_eq_drop.mp h).symm⟩

theorem HasSuffix_eq_false_iff (s t : String) : HasSuffix s t = false ↔ ¬ t.data <:+ s.data := by
  rw [← HasSuffix_iff, Bool.not_eq_true]

theorem matchesZoneLoop_iff (qname : String) (zones : List String) :
    matchesZoneLoop qname zones = true ↔
      ∃ zone ∈ zones, HasSuffix (ToLower qname) (ToLower zone) = true := by
  induction zones with
  | nil => simp [matchesZoneLoop]
  | cons z rest ih =>
    unfold matchesZoneLoop
    by_cases h : HasSuffix (ToLower qname) (ToLower z) = true
    · simp [h]
    · simp [h, ih]

theorem matchesZone_single (i : IpToCname) (zone qname : String) :
    matchesZone { i with Zones := [zone] } qname = HasSuffix (ToLower qname) (ToLower zone) := by
  simp [matchesZone, matchesZoneLoop]

theorem ToLower_data (s : String) : (ToLower s).data = s.data.map toLowerRune := rfl

theorem ToLower_wildcard_data (zone : String) :
    (ToLower ("*." ++ zone)).data = '*' :: '.' :: (ToLower zone).data := by
  simp [ToLower_data, String.data_append]
  decide

theorem replaceAllAux_dot_dash (s : List Char) :
    replaceAllAux ['.'] ['-'] 0 s = s.map (fun c => if c = '.' then '-' else c) := by
  induction s with
  | nil => rfl
  | cons c s ih =>
    by_cases h : c = '.'
    · subst h
      simp [replaceAllAux, ih]
    · have h2 : ¬ '.' = c := fun e => h e.symm
      simp [replaceAllAux, ih, h, h2]

theorem ReplaceAll_dot_dash (s : String) :
    ReplaceAll s "." "-" = ⟨s.data.map (fun c => if c = '.' then '-' else c)⟩ := by
  have h : ("." : String).data = ['.'] := rfl
  have h2 : ("-" : String).data = ['-'] := rfl
  simp [ReplaceAll, h, h2, replaceAllAux_dot_dash]

theorem resolveUpstreamLoop_none (l : List RR) (h : ∀ rr ∈ l, rr.isA = false) :
    resolveUpstreamLoop l = ("", some ⟨"no A record found"⟩) := by
  induction l with
  | nil => rfl
  | cons rr rest ih =>
    have hrest := ih (fun x hx => h x (List.mem_cons_of_mem _ hx))
    have hrr := h rr (List.mem_cons_self _ _)
    cases rr with
    | A hdr a => simp [RR.isA] at hrr
    | CNAME hdr t => simpa [resolveUpstreamLoop] using hrest
    | other hdr => simpa [resolveUpstreamLoop] using hrest

theorem resolveUpstreamLoop_first (pre post : List RR) (hdr : RR_Header) (a : IP)
    (h : ∀ rr ∈ pre, rr.isA = false) :
    resolveUpstreamLoop (pre ++ RR.A hdr a :: post) = (a.String, none) := by
  induction pre with
  | nil => rfl
  | cons rr rest ih =>
    have hrest := ih (fun x hx => h x (List.mem_cons_of_mem _ hx))
    have hrr := h rr (List.mem_cons_self _ _)
    cases rr with
    | A hdr a => simp [RR.isA] at hrr
    | CNAME hdr t => simpa [resolveUpstreamLoop] using hrest
    | other hdr => simpa [resolveUpstreamLoop] using hrest

theorem exists_first_A (l : List RR) (h : ∃ rr ∈ l, rr.isA = true) :
    ∃ pre hdr a post, l = pre ++ RR.A hdr a :: post ∧ ∀ rr ∈ pre, rr.isA = false := by
  induction l with
  | nil => simp at h
  | cons rr rest ih =>
    cases hrr : rr with
    | A hdr a => exact ⟨[], hdr, a, rest, rfl, by simp⟩
    | CNAME hdr t =>
      subst hrr
      obtain ⟨pre, hdr2, a, post, hl, hpre⟩ := ih (by simpa [RR.isA] using h)
      exact ⟨RR.CNAME hdr t :: pre, hdr2, a, post, by simp [hl], by simpa [RR.isA] using hpre⟩
    | other hdr =>
      subst hrr
      obtain ⟨pre, hdr2, a, post, hl, hpre⟩ := ih (by simpa [RR.isA] using h)
      exact ⟨RR.other hdr :: pre, hdr2, a, post, by simp [hl], by simpa [RR.isA] using hpre⟩

theorem resolveUpstream_first_A {i : IpToCname} {exchange : Exchange} {qname : String}
    {up : Msg} (hex : exchange qname i.Upstream = .ok up) (hrc : up.Rcode = RcodeSuccess)
    (hA : ∃ rr ∈ up.Answer, rr.isA = true) :
    ∃ pre hdr a post,
      up.Answer = pre ++ RR.A hdr a :: post ∧ (∀ rr ∈ pre, rr.isA = false) ∧
        resolveUpstream i exchange qname = (a.String, none) := by
  obtain ⟨pre, hdr, a, post, hl, hpre⟩ := exists_first_A _ hA
  refine ⟨pre, hdr, a, post, hl, hpre, ?_⟩
  unfold resolveUpstream
  rw [hex]
  simp only [hrc, ne_eq, not_true_eq_false, if_false]
  rw [hl]
  exact resolveUpstreamLoop_first pre post hdr a hpre

theorem resolveUpstream_ok_iff (i : IpToCname) (exchange : Exchange) (qname : String) :
    (resolveUpstream i exchange qname).2 = none ↔ yieldsA (exchange qname i.Upstream) = true := by
  unfold resolveUpstream yieldsA
  cases hex : exchange qname i.Upstream with
  | error err => simp
  | ok up =>
    by_cases hrc : up.Rcode = RcodeSuccess
    · by_cases hA : ∃ rr ∈ up.Answer, rr.isA = true
      · obtain ⟨pre, hdr, a, post, hl, hpre⟩ := exists_first_A _ hA
        have := resolveUpstreamLoop_first pre post hdr a hpre
        rw [← hl] at this
        simpa [hrc, this] using hA
      · have hno : ∀ rr ∈ up.Answer, rr.isA = false := by
          intro rr hrr
          by_contra hc
          exact hA ⟨rr, hrr, by simpa using hc⟩
        simp [hrc, resolveUpstreamLoop_none _ hno]
        exact hno
    · simp [hrc]

theorem ServeDNS_action_nil (i : IpToCname) (exchange : Exchange) (r : Msg)
    (hq : r.Question = []) : ServeDNS_action i exchange r = .nextOrFailure r := by
  simp [ServeDNS_action, hq]

theorem ServeDNS_action_pos (i : IpToCname) (exchange : Exchange) (r : Msg)
    (q : Question) (rest : List Question) (ip : String)
    (hq : r.Question = q :: rest) (hA : q.Qtype = TypeA)
    (hz : matchesZone i q.Name = true) (hup : resolveUpstream i exchange q.Name = (ip, none)) :
    ServeDNS_action i exchange r =
      .writeMsg
        { Msg.SetReply {} r with
          Authoritative := true
          Answer := (Msg.SetReply {} r).Answer ++
            [RR.CNAME { Name := q.Name, Rrtype := TypeCNAME, Class := ClassINET, Ttl := 60 }
              (transformIP i ip)] }
        RcodeSuccess := by
  simp [ServeDNS_action, hq, hA, hz, hup]

theorem ServeDNS_action_neg (i : IpToCname) (exchange : Exchange) (r : Msg)
    (q : Question) (rest : List Question) (hq : r.Question = q :: rest)
    (h : q.Qtype ≠ TypeA ∨ matchesZone i q.Name = false ∨
      (resolveUpstream i exchange q.Name).2 ≠ none) :
    ServeDNS_action i exchange r = .nextOrFailure r := by
  unfold ServeDNS_action
  rw [hq]
  by_cases hA : q.Qtype = TypeA
  · by_cases hz : matchesZone i q.Name = true
    · rcases hres : resolveUpstream i exchange q.Name with ⟨ip, _ | err⟩
      · rcases h with h | h | h
        · exact absurd hA h
        · rw [hz] at h; cases h
        · rw [hres] at h; exact absurd rfl h
      · simp [hA, hz, hres]
    · simp [hA, hz]
  · simp [hA]

theorem SetReply_new_Answer (r : Msg) : (Msg.SetReply {} r).Answer = [] := by
  unfold Msg.SetReply
  cases r.Question <;> simp <;> split <;> rfl

theorem toNat_ofNat_valid (n : Nat) (hv : n.isValidChar) : (Char.ofNat n).toNat = n := by
  unfold Char.ofNat
  rw [dif_pos hv]
  rfl

theorem toLowerRune_toNat (c : Char) :
    (toLowerRune c).toNat = if 65 ≤ c.toNat ∧ c.toNat ≤ 90 then c.toNat + 32 else c.toNat := by
  unfold toLowerRune Char.toLower
  by_cases h : 65 ≤ c.toNat ∧ c.toNat ≤ 90
  · simp only [ge_iff_le, h, and_self, if_true]
    exact toNat_ofNat_valid _ (Or.inl (by omega))
  · simp [h]

theorem char_eq_of_toNat_eq (c d : Char) (h : c.toNat = d.toNat) : c = d := by
  rw [← Char.ofNat_toNat c, ← Char.ofNat_toNat d, h]

theorem toLowerRune_eq_dot (c : Char) (h : toLowerRune c = '.') : c = '.' := by
  apply char_eq_of_toNat_eq
  have h2 := congrArg Char.toNat h
  rw [toLowerRune_toNat] at h2
  have h3 : ('.' : Char).toNat = 46 := rfl
  rw [h3] at h2 ⊢
  split_ifs at h2 <;> omega

theorem toLowerRune_sameLetter (c d : Char) (h : sameLetter c d = true) :
    toLowerRune c = toLowerRune d := by
  unfold sameLetter at h
  simp only [Bool.or_eq_true, decide_eq_true_eq] at h
  apply char_eq_of_toNat_eq
  rw [toLowerRune_toNat, toLowerRune_toNat]
  rcases h with (h | h) | h
  · rw [h]
  · split_ifs <;> omega
  · split_ifs <;> omega

theorem map_toLowerRune_sameLetters (a b : List Char) (h : sameLetters a b = true) :
    a.map toLowerRune = b.map toLowerRune := by
  induction a generalizing b with
  | nil =>
    cases b with
    | nil => rfl
    | cons d ds => simp [sameLetters] at h
  | cons c cs ih =>
    cases b with
    | nil => simp [sameLetters] at h
    | cons d ds =>
      simp only [sameLetters, Bool.and_eq_true] at h
      simp [toLowerRune_sameLetter c d h.1, ih ds h.2]

theorem ToLower_differOnlyInCase (a b : String) (h : differOnlyInCase a b = true) :
    ToLower a = ToLower b := by
  unfold ToLower
  rw [map_toLowerRune_sameLetters a.data b.data h]

theorem ToLower_append_data (a b : String) :
    (ToLower (a ++ b)).data = (ToLower a).data ++ (ToLower b).data := by
  simp [ToLower_data, String.data_append]

theorem HasSuffix_dot_iff (res : String) :
    HasSuffix res "." = true ↔ res.data.getLast? = some '.' := by
  rw [HasSuffix_iff]
  show ['.'] <:+ res.data ↔ _
  constructor
  · rintro ⟨t, h⟩
    rw [← h]; simp
  · intro h
    obtain ⟨t, h2⟩ := List.getLast?_eq_some_iff.mp h
    exact ⟨t, h2.symm⟩

theorem dot_not_mem_map_dotToDash (l : List Char) : '.' ∉ l.map dotToDash := by
  intro h
  obtain ⟨c, _, hc⟩ := List.mem_map.mp h
  unfold dotToDash at hc
  split_ifs at hc
  · exact absurd hc (by decide)
  · exact absurd hc (by assumption)

theorem getLast?_dashed_append (l s : List Char) :
    (l.map dotToDash ++ s).getLast? = some '.' ↔ s.getLast? = some '.' := by
  cases hs : s with
  | nil =>
    simp only [List.append_nil, List.getLast?_nil]
    constructor
    · intro h
      exact absurd (List.mem_of_getLast?_eq_some h) (dot_not_mem_map_dotToDash l)
    · intro h
      cases h
  | cons c cs =>
    rw [List.getLast?_append_of_ne_nil _ (by simp)]

theorem transformIP_data (i : IpToCname) (ip : String) :
    (transformIP i ip).data =
      ip.data.map dotToDash ++ i.TargetSuffix.data ++
        (if i.TargetSuffix.data.getLast? = some '.' then [] else ['.']) := by
  simp only [transformIP, Sprintf_s_s, ReplaceAll_dot_dash]
  have hd : (fun c => if c = '.' then '-' else c) = dotToDash := rfl
  rw [hd]
  have key := HasSuffix_dot_iff ((⟨ip.data.map dotToDash⟩ : String) ++ i.TargetSuffix)
  rw [String.data_append, getLast?_dashed_append] at key
  cases h : HasSuffix ((⟨ip.data.map dotToDash⟩ : String) ++ i.TargetSuffix) "."
  · have h2 : ¬ i.TargetSuffix.data.getLast? = some '.' := fun e => by
      rw [key.mpr e] at h; cases h
    simp [h2, String.data_append]
  · simp [key.mp h, String.data_append]

theorem map_dotToDash_injOn (a b : List Char) (ha : '-' ∉ a) (hb : '-' ∉ b)
    (h : a.map dotToDash = b.map dotToDash) : a = b := by
  induction a generalizing b with
  | nil =>
    cases b with
    | nil => rfl
    | cons d ds => simp at h
  | cons c cs ih =>
    cases b with
    | nil => simp at h
    | cons d ds =>
      simp only [List.map_cons, List.cons.injEq] at h
      simp only [List.mem_cons, not_or] at ha hb
      have hcd : c = d := by
        have h1 := h.1
        unfold dotToDash at h1
        split_ifs at h1 with hc hd hd
        · rw [hc, hd]
        · exact absurd h1.symm (fun e => hb.1 e.symm)
        · exact absurd h1 (fun e => ha.1 e.symm)
        · exact h1
      rw [hcd, ih ds ha.2 hb.2 h.2]

theorem parseBlockLine_Zones :
    ∀ (line : List String) (i j : IpToCname),
      parseBlockLine i line = .ok j → j.Zones = i.Zones
  | [], i, j, h => by
    simp only [parseBlockLine, Except.ok.injEq] at h
    rw [← h]
  | [key], i, j, h => by
    unfold parseBlockLine at h
    split_ifs at h
  | key :: val :: rest, i, j, h => by
    unfold parseBlockLine at h
    split_ifs at h
    · exact parseBlockLine_Zones rest { i with TargetSuffix := val } j h
    · exact parseBlockLine_Zones rest { i with Upstream := val } j h

theorem parseBlock_Zones :
    ∀ (block : List (List String)) (i j : IpToCname),
      parseBlock i block = .ok j → j.Zones = i.Zones
  | [], i, j, h => by
    simp only [parseBlock, Except.ok.injEq] at h
    rw [← h]
  | line :: rest, i, j, h => by
    unfold parseBlock at h
    cases hl : parseBlockLine i line with
    | error err => rw [hl] at h; cases h
    | ok i2 =>
      rw [hl] at h
      rw [parseBlock_Zones rest i2 j h, parseBlockLine_Zones line i i2 hl]

theorem parseConfigLoop_no_args :
    ∀ (c : List Directive) (i j : IpToCname), (∀ d ∈ c, d.args = []) →
      parseConfigLoop i c = .ok j → j.Zones = i.Zones
  | [], i, j, _, h => by
    simp only [parseConfigLoop, Except.ok.injEq] at h
    rw [← h]
  | d :: rest, i, j, hc, h => by
    unfold parseConfigLoop at h
    have hd : d.args = [] := hc d (List.mem_cons_self _ _)
    simp only [hd, List.length_nil, gt_iff_lt, lt_self_iff_false, if_false] at h
    cases hb : parseBlock i d.block with
    | error err => rw [hb] at h; cases h
    | ok i2 =>
      rw [hb] at h
      rw [parseConfigLoop_no_args rest i2 j (fun x hx => hc x (List.mem_cons_of_mem _ hx)) h,
        parseBlock_Zones d.block i i2 hb]

theorem parseConfig_loop_error (c : List Directive) (err : GoError)
    (hl : parseConfigLoop
      { TargetSuffix := "-via-9.shark-perch.ts.net", Upstream := "100.100.100.100:53" } c =
        .error err) :
    parseConfig c = .error err := by
  simp only [parseConfig, hl]

theorem parseConfig_loop_ok (c : List Directive) (i2 : IpToCname)
    (hl : parseConfigLoop
      { TargetSuffix := "-via-9.shark-perch.ts.net", Upstream := "100.100.100.100:53" } c =
        .ok i2) :
    parseConfig c =
      if i2.Zones.length = 0 then .error ⟨"no zones specified"⟩ else .ok i2 := by
  simp only [parseConfig, hl]

set_option maxRecDepth 100000 in
theorem octet_no_dash : ∀ n : Fin 256, '-' ∉ (Nat.repr n.val).data := by decide

theorem IPv4_String_no_dash (a : IPv4) : '-' ∉ a.String.data := by
  unfold IPv4.String
  simp only [String.data_append, List.mem_append, not_or]
  have hd : '-' ∉ (".": String).data := by decide
  exact ⟨⟨⟨⟨⟨⟨octet_no_dash a.o1, hd⟩, octet_no_dash a.o2⟩, hd⟩, octet_no_dash a.o3⟩, hd⟩,
    octet_no_dash a.o4⟩

theorem ServeDNS_action_dichotomy (i : IpToCname) (exchange : Exchange) (r : Msg) :
    ((∃ q, r.Question.head? = some q ∧ q.Qtype = TypeA ∧ matchesZone i q.Name = true ∧
        yieldsA (exchange q.Name i.Upstream) = true) ∧
      ∃ resp hdr target,
        ServeDNS_action i exchange r = .writeMsg resp RcodeSuccess ∧
          resp.Answer = [RR.CNAME hdr target]) ∨
    ((¬ ∃ q, r.Question.head? = some q ∧ q.Qtype = TypeA ∧ matchesZone i q.Name = true ∧
        yieldsA (exchange q.Name i.Upstream) = true) ∧
      ServeDNS_action i exchange r = .nextOrFailure r) := by
  cases hq : r.Question with
  | nil =>
    exact Or.inr ⟨by simp, ServeDNS_action_nil i exchange r hq⟩
  | cons q rest =>
    by_cases hc : q.Qtype = TypeA ∧ matchesZone i q.Name = true ∧
        (resolveUpstream i exchange q.Name).2 = none
    · obtain ⟨hA, hz, hup⟩ := hc
      have hy := (resolveUpstream_ok_iff i exchange q.Name).mp hup
      have hact := ServeDNS_action_pos i exchange r q rest
        (resolveUpstream i exchange q.Name).1 hq hA hz (Prod.ext rfl hup)
      exact Or.inl ⟨⟨q, rfl, hA, hz, hy⟩, _,
        { Name := q.Name, Rrtype := TypeCNAME, Class := ClassINET, Ttl := 60 },
        transformIP i (resolveUpstream i exchange q.Name).1, hact,
        by simp [SetReply_new_Answer]⟩
    · have hneg : q.Qtype ≠ TypeA ∨ matchesZone i q.Name = false ∨
          (resolveUpstream i exchange q.Name).2 ≠ none := by
        by_cases hA : q.Qtype = TypeA
        · by_cases hz : matchesZone i q.Name = true
          · exact Or.inr (Or.inr (fun hup => hc ⟨hA, hz, hup⟩))
          · exact Or.inr (Or.inl (by simpa using hz))
        · exact Or.inl hA
      refine Or.inr ⟨fun h => ?_, ServeDNS_action_neg i exchange r q rest hq hneg⟩
      obtain ⟨q2, hq2, hA, hz, hy⟩ := h
      have hqq : q = q2 := by simpa using hq2
      subst hqq
      exact absurd ⟨hA, hz, (resolveUpstream_ok_iff i exchange q.Name).mpr hy⟩ hc

theorem ServeDNS_of_writeMsg (i : IpToCname) (exchange : Exchange) (w : ResponseWriter)
    (r resp : Msg) (rcode : Nat)
    (h : ServeDNS_action i exchange r = .writeMsg resp rcode) :
    ServeDNS i exchange w r = (WriteMsg w resp, rcode, none) := by
  unfold ServeDNS
  rw [h]

theorem ServeDNS_of_nextOrFailure (i : IpToCname) (exchange : Exchange) (w : ResponseWriter)
    (r : Msg) (h : ServeDNS_action i exchange r = .nextOrFailure r) :
    ServeDNS i exchange w r = NextOrFailure i.Name i.Next w r := by
  unfold ServeDNS
  rw [h]

theorem ServeDNS_action_Next (i : IpToCname) (next : Option Handler) (exchange : Exchange)
    (r : Msg) :
    ServeDNS_action { i with Next := next } exchange r = ServeDNS_action i exchange r := rfl

/-- C1: `ServeDNS` writes a synthesized CNAME answer to the response writer
(whatever the next handler and the writer `w`, the writer afterwards is `w`
with one more message whose answer section is one CNAME record, and the
return value is `(RcodeSuccess, nil)`) if and only if the request has a
question (the one `ServeDNS` reads, `r.Question[0]`), that question has type
A, `matchesZone` is true for its name, and the upstream outcome yields an A
record (a response with rcode success holding at least one A record, which is
exactly when `resolveUpstream` returns no error).  In every other case
`ServeDNS` writes nothing itself: its result is that of
`plugin.NextOrFailure` on the writer and the request as they came in. -/
theorem C1_synthesized_answer_iff (i : IpToCname) (exchange : Exchange) (r : Msg) :
    ((∃ resp hdr target, resp.Answer = [RR.CNAME hdr target] ∧
        ∀ (next : Option Handler) (w : ResponseWriter),
          ServeDNS { i with Next := next } exchange w r =
            (WriteMsg w resp, RcodeSuccess, none)) ↔
      ∃ q, r.Question.head? = some q ∧ q.Qtype = TypeA ∧ matchesZone i q.Name = true ∧
        yieldsA (exchange q.Name i.Upstream) = true) ∧
    ((∃ resp hdr target, resp.Answer = [RR.CNAME hdr target] ∧
        ∀ (next : Option Handler) (w : ResponseWriter),
          ServeDNS { i with Next := next } exchange w r =
            (WriteMsg w resp, RcodeSuccess, none)) ∨
      (ServeDNS_action i exchange r = .nextOrFailure r ∧
        ∀ (next : Option Handler) (w : ResponseWriter),
          ServeDNS { i with Next := next } exchange w r =
            NextOrFailure i.Name next w r)) := by
  rcases ServeDNS_action_dichotomy i exchange r with
    ⟨hc, resp, hdr, target, hact, hans⟩ | ⟨hc, hact⟩
  · have hw : ∃ resp hdr target, resp.Answer = [RR.CNAME hdr target] ∧
        ∀ (next : Option Handler) (w : ResponseWriter),
          ServeDNS { i with Next := next } exchange w r =
            (WriteMsg w resp, RcodeSuccess, none) :=
      ⟨resp, hdr, target, hans, fun next w =>
        ServeDNS_of_writeMsg { i with Next := next } exchange w r resp RcodeSuccess
          ((ServeDNS_action_Next i next exchange r).trans hact)⟩
    exact ⟨⟨fun _ => hc, fun _ => hw⟩, Or.inl hw⟩
  · have hd : ∀ (next : Option Handler) (w : ResponseWriter),
        ServeDNS { i with Next := next } exchange w r = NextOrFailure i.Name next w r :=
      fun next w => ServeDNS_of_nextOrFailure { i with Next := next } exchange w r
        ((ServeDNS_action_Next i next exchange r).trans hact)
    refine ⟨⟨fun h => ?_, fun h => absurd h hc⟩, Or.inr ⟨hact, hd⟩⟩
    obtain ⟨resp, _, _, _, h⟩ := h
    have h2 := (hd none []).symm.trans (h none [])
    have h3 : RcodeServerFailure = RcodeSuccess := congrArg (fun x => x.2.1) h2
    exact absurd h3 (by decide)

/-- C1, at work: an A query under `example.com.` answered upstream with one A
record gets a CNAME written to the response writer, and the same query of type
CNAME does not. -/
theorem C1_synthesized_answer_iff_witness :
    (∃ resp hdr target, resp.Answer = [RR.CNAME hdr target] ∧
        ∀ (next : Option Handler) (w : ResponseWriter),
          ServeDNS { cfg ["example.com."] with Next := next }
              (answering { Answer := [sampleA "foo.example.com."] }) w
              (query "foo.example.com." TypeA) =
            (WriteMsg w resp, RcodeSuccess, none)) ∧
    ¬ (∃ resp hdr target, resp.Answer = [RR.CNAME hdr target] ∧
        ∀ (next : Option Handler) (w : ResponseWriter),
          ServeDNS { cfg ["example.com."] with Next := next }
              (answering { Answer := [sampleA "foo.example.com."] }) w
              (query "foo.example.com." TypeCNAME) =
            (WriteMsg w resp, RcodeSuccess, none)) :=
  ⟨(C1_synthesized_answer_iff _ _ _).1.mpr ⟨_, rfl, by decide, by decide, by decide⟩,
   fun h => by
    obtain ⟨q, hq, hA, _⟩ := (C1_synthesized_answer_iff _ _ _).1.mp h
    cases hq
    exact absurd hA (by decide)⟩

/-- C2 as stated fails: the non-wildcard zone `example.com.` matches the name
`badexample.com.`, which is neither the zone nor ends with `.example.com.`. -/
theorem C2_label_boundary_counterexample :
    isWildcard "example.com." = false ∧
      matchesZone (cfg ["example.com."]) "badexample.com." = true ∧
      ToLower "badexample.com." ≠ ToLower "example.com." ∧
      HasSuffix (ToLower "badexample.com.") ("." ++ ToLower "example.com.") = false := by
  decide

/-- C2, amended: with a single zone pattern `Z`, `matchesZone` is true on `N`
if and only if lower-case `N` ends with lower-case `Z` as a string, that is
`N = P ++ Z` for some (possibly empty) `P`, on a label boundary or not; so it
is true whenever `N` is `Z` or ends with `"." ++ Z`. -/
theorem C2_single_zone_suffix (i : IpToCname) (Z N : String) :
    (matchesZone { i with Zones := [Z] } N = true ↔
      ∃ P : List Char, (ToLower N).data = P ++ (ToLower Z).data) ∧
    (underZone N Z = true → matchesZone { i with Zones := [Z] } N = true) := by
  rw [matchesZone_single, HasSuffix_iff]
  refine ⟨⟨fun ⟨P, h⟩ => ⟨P, h.symm⟩, fun ⟨P, h⟩ => ⟨P, h.symm⟩⟩, fun h => ?_⟩
  unfold underZone at h
  rw [Bool.or_eq_true, decide_eq_true_iff, HasSuffix_iff] at h
  rcases h with h | h
  · rw [h]
  · exact (List.suffix_cons '.' _).trans (by simpa [String.data_append] using h)

/-- C2, amended, at work on `example.com.`: the zone itself and a subdomain. -/
theorem C2_single_zone_suffix_witness :
    matchesZone (cfg ["example.com."]) "example.com." = true ∧
      matchesZone (cfg ["example.com."]) "foo.example.com." = true :=
  ⟨(C2_single_zone_suffix (cfg []) "example.com." "example.com.").2 (by decide),
   (C2_single_zone_suffix (cfg []) "example.com." "foo.example.com.").2 (by decide)⟩

/-- C3 fails on the code: with the wildcard zone `*.example.com.` none of the
strict subdomains `foo.example.com.`, `bar.example.com.`, `baz.foo.example.com.`
is matched, although the test table of the repository expects a match. -/
theorem C3_wildcard_subdomains_unmatched :
    matchesZone (cfg ["*.example.com."]) "foo.example.com." = false ∧
      matchesZone (cfg ["*.example.com."]) "bar.example.com." = false ∧
      matchesZone (cfg ["*.example.com."]) "baz.foo.example.com." = false := by
  decide

/-- C4: with the single zone pattern `"*." ++ Z`, `matchesZone` is false on the
bare name `Z`, and false on every name that is not under `Z` (neither `Z` nor
ending with `"." ++ Z`, in lower case). -/
theorem C4_wildcard_rejects (i : IpToCname) (Z : String) :
    matchesZone { i with Zones := ["*." ++ Z] } Z = false ∧
      ∀ N, underZone N Z = false → matchesZone { i with Zones := ["*." ++ Z] } N = false := by
  constructor
  · rw [matchesZone_single, HasSuffix_eq_false_iff, ToLower_wildcard_data]
    intro h
    have := h.length_le
    simp at this
    omega
  · intro N hN
    rw [matchesZone_single, HasSuffix_eq_false_iff, ToLower_wildcard_data]
    intro h
    have h2 : ('.' :: (ToLower Z).data) <:+ (ToLower N).data :=
      (List.suffix_cons '*' _).trans h
    have h3 : HasSuffix (ToLower N) ("." ++ ToLower Z) = true := by
      rw [HasSuffix_iff]
      simpa [String.data_append] using h2
    simp [underZone, h3] at hN

/-- C4, at work: `*.example.com.` matches neither `example.com.` nor
`other.com.`. -/
theorem C4_wildcard_rejects_witness :
    matchesZone (cfg ["*.example.com."]) "example.com." = false ∧
      matchesZone (cfg ["*.example.com."]) "other.com." = false :=
  ⟨(C4_wildcard_rejects (cfg []) "example.com.").1,
   (C4_wildcard_rejects (cfg []) "example.com.").2 "other.com." (by decide)⟩

/-- C5: `transformIP ip` is `ip` with every `.` replaced by `-`, followed by
the target suffix verbatim, followed by one more `.` exactly when that
concatenation does not already end with `.`; and `10.0.123.45` with suffix
`-via-9.shark-perch.ts.net` becomes `10-0-123-45-via-9.shark-perch.ts.net.`. -/
theorem C5_transformIP_eq (i : IpToCname) (ip : String) :
    transformIP i ip =
        (if ((⟨ip.data.map (fun c => if c = '.' then '-' else c)⟩ : String)
              ++ i.TargetSuffix).data.getLast? = some '.' then
          (⟨ip.data.map (fun c => if c = '.' then '-' else c)⟩ : String) ++ i.TargetSuffix
        else
          (⟨ip.data.map (fun c => if c = '.' then '-' else c)⟩ : String) ++ i.TargetSuffix
            ++ ".") ∧
      transformIP (cfg []) "10.0.123.45" = "10-0-123-45-via-9.shark-perch.ts.net." := by
  refine ⟨?_, by decide⟩
  simp only [transformIP, Sprintf_s_s, ReplaceAll_dot_dash]
  generalize (⟨ip.data.map (fun c => if c = '.' then '-' else c)⟩ : String)
    ++ i.TargetSuffix = res
  have key : HasSuffix res "." = true ↔ res.data.getLast? = some '.' := by
    rw [HasSuffix_iff]
    show ['.'] <:+ res.data ↔ _
    constructor
    · rintro ⟨t, h⟩
      rw [← h]; simp
    · intro h
      obtain ⟨t, h2⟩ := List.getLast?_eq_some_iff.mp h
      exact ⟨t, h2.symm⟩
  cases h : HasSuffix res "."
  · have h2 : ¬ res.data.getLast? = some '.' := fun e => by
      rw [key.mpr e] at h; cases h
    simp [h2]
  · simp [key.mp h]

/-- C6: for a request whose first question has type A and a name matching a
configured zone, and an upstream outcome resolving to `ip`, `ServeDNS` writes
exactly one message and returns `(RcodeSuccess, nil)`.  The message is the
reply to the request (same id and opcode, response bit set, rcode success,
the first question copied) with the authoritative flag set; its answer
section is the single CNAME record with owner `qname`, class INET, TTL 60 and
target `transformIP ip`, and its authority and additional sections are empty. -/
theorem C6_synthesized_reply (i : IpToCname) (exchange : Exchange) (w : ResponseWriter)
    (r : Msg) (q : Question) (rest : List Question) (ip : String)
    (hq : r.Question = q :: rest) (hA : q.Qtype = TypeA)
    (hz : matchesZone i q.Name = true)
    (hup : resolveUpstream i exchange q.Name = (ip, none)) :
    ∃ resp : Msg,
      ServeDNS i exchange w r = (w ++ [resp], RcodeSuccess, none) ∧
      resp = { Msg.SetReply {} r with
                Authoritative := true
                Answer := [RR.CNAME
                  { Name := q.Name, Rrtype := TypeCNAME, Class := ClassINET, Ttl := 60 }
                  (transformIP i ip)] } ∧
      resp.Id = r.Id ∧ resp.Response = true ∧ resp.Opcode = r.Opcode ∧
      resp.Rcode = RcodeSuccess ∧ resp.Question = [q] ∧
      resp.Authoritative = true ∧
      resp.Answer = [RR.CNAME
        { Name := q.Name, Rrtype := TypeCNAME, Class := ClassINET, Ttl := 60 }
        (transformIP i ip)] ∧
      resp.Ns = [] ∧ resp.Extra = [] := by
  refine ⟨_, ?_, rfl, ?_⟩
  · unfold ServeDNS
    rw [ServeDNS_action_pos i exchange r q rest ip hq hA hz hup]
    simp [WriteMsg, SetReply_new_Answer]
  · unfold Msg.SetReply
    rw [hq]
    by_cases ho : r.Opcode = OpcodeQuery <;> simp [ho]

/-- C6, at work: the A query for `foo.example.com.` with upstream address
`10.0.123.45` is answered with the CNAME to
`10-0-123-45-via-9.shark-perch.ts.net.`. -/
theorem C6_synthesized_reply_witness :
    ∃ resp : Msg,
      ServeDNS (cfg ["example.com."]) (answering { Answer := [sampleA "foo.example.com."] }) []
          (query "foo.example.com." TypeA) = ([resp], RcodeSuccess, none) ∧
        resp.Authoritative = true ∧
        resp.Answer = [RR.CNAME
          { Name := "foo.example.com.", Rrtype := TypeCNAME, Class := ClassINET, Ttl := 60 }
          "10-0-123-45-via-9.shark-perch.ts.net."] := by
  obtain ⟨resp, h1, _, _, _, _, _, _, h2, h3, _⟩ :=
    C6_synthesized_reply (cfg ["example.com."])
      (answering { Answer := [sampleA "foo.example.com."] }) []
      (query "foo.example.com." TypeA)
      { Name := "foo.example.com.", Qtype := TypeA, Qclass := ClassINET } [] "10.0.123.45"
      rfl (by decide) (by decide) (by decide)
  refine ⟨resp, h1, h2, ?_⟩
  rw [h3]
  decide

/-- C7: whenever the request has no question, or its first question is not of
type A, or its name matches no configured zone, or `resolveUpstream` returns an
error, `ServeDNS` writes no message of its own, and its result (writer state,
status code, error) is exactly that of `plugin.NextOrFailure` on the unmodified
request. -/
theorem C7_escalates (i : IpToCname) (exchange : Exchange) (w : ResponseWriter) (r : Msg)
    (h : r.Question = [] ∨
      ∃ q rest, r.Question = q :: rest ∧
        (q.Qtype ≠ TypeA ∨ matchesZone i q.Name = false ∨
          (resolveUpstream i exchange q.Name).2 ≠ none)) :
    ServeDNS_action i exchange r = .nextOrFailure r ∧
      ServeDNS i exchange w r = NextOrFailure i.Name i.Next w r := by
  have hact : ServeDNS_action i exchange r = .nextOrFailure r := by
    rcases h with h | ⟨q, rest, hq, h⟩
    · exact ServeDNS_action_nil i exchange r h
    · exact ServeDNS_action_neg i exchange r q rest hq h
  exact ⟨hact, by unfold ServeDNS; rw [hact]⟩

/-- C7, at work: a CNAME query for a matching zone, and an A query whose
upstream exchange fails, both go to the next handler. -/
theorem C7_escalates_witness :
    ServeDNS_action (cfg ["example.com."])
        (answering { Answer := [sampleA "foo.example.com."] })
        (query "foo.example.com." TypeCNAME) =
      .nextOrFailure (query "foo.example.com." TypeCNAME) ∧
    ServeDNS (cfg ["example.com."]) (failing ⟨"i/o timeout"⟩) []
        (query "foo.example.com." TypeA) =
      ([], RcodeServerFailure, some ⟨"plugin/coredns-a2cname: no next plugin found"⟩) :=
  ⟨(C7_escalates (cfg ["example.com."]) (answering { Answer := [sampleA "foo.example.com."] })
      [] (query "foo.example.com." TypeCNAME)
      (Or.inr ⟨_, _, rfl, Or.inl (by decide)⟩)).1,
   (C7_escalates (cfg ["example.com."]) (failing ⟨"i/o timeout"⟩)
      [] (query "foo.example.com." TypeA)
      (Or.inr ⟨_, _, rfl, Or.inr (Or.inr (by decide))⟩)).2⟩

/-- C9: `resolveUpstream` returns an error if and only if the exchange fails, or
the response rcode is not success, or the response is successful without an A
record in its answer list.  In the first case the transport error itself is
returned, in the second an error whose message carries the decimal rcode
(whatever the answer list holds), in the third the error "no A record found";
and on every error the returned address is the empty string. -/
theorem C9_resolveUpstream_errors (i : IpToCname) (exchange : Exchange) (qname : String) :
    ((resolveUpstream i exchange qname).2 ≠ none ↔
      (∃ err, exchange qname i.Upstream = .error err) ∨
      (∃ up, exchange qname i.Upstream = .ok up ∧ up.Rcode ≠ RcodeSuccess) ∨
      (∃ up, exchange qname i.Upstream = .ok up ∧ up.Rcode = RcodeSuccess ∧
        ∀ rr ∈ up.Answer, rr.isA = false)) ∧
    (∀ err, exchange qname i.Upstream = .error err →
      resolveUpstream i exchange qname = ("", some err)) ∧
    (∀ up, exchange qname i.Upstream = .ok up → up.Rcode ≠ RcodeSuccess →
      resolveUpstream i exchange qname =
        ("", some ⟨"DNS query failed with rcode: " ++ Nat.repr up.Rcode⟩)) ∧
    (∀ up, exchange qname i.Upstream = .ok up → up.Rcode = RcodeSuccess →
      (∀ rr ∈ up.Answer, rr.isA = false) →
      resolveUpstream i exchange qname = ("", some ⟨"no A record found"⟩)) ∧
    ((resolveUpstream i exchange qname).2 ≠ none → (resolveUpstream i exchange qname).1 = "") := by
  have h1 : ∀ err, exchange qname i.Upstream = .error err →
      resolveUpstream i exchange qname = ("", some err) := by
    intro err hex
    simp [resolveUpstream, hex]
  have h2 : ∀ up, exchange qname i.Upstream = .ok up → up.Rcode ≠ RcodeSuccess →
      resolveUpstream i exchange qname =
        ("", some ⟨"DNS query failed with rcode: " ++ Nat.repr up.Rcode⟩) := by
    intro up hex hrc
    simp [resolveUpstream, hex, hrc]
  have h3 : ∀ up, exchange qname i.Upstream = .ok up → up.Rcode = RcodeSuccess →
      (∀ rr ∈ up.Answer, rr.isA = false) →
      resolveUpstream i exchange qname = ("", some ⟨"no A record found"⟩) := by
    intro up hex hrc hno
    simp [resolveUpstream, hex, hrc, resolveUpstreamLoop_none _ hno]
  have hcases : (∃ err, exchange qname i.Upstream = .error err) ∨
      (∃ up, exchange qname i.Upstream = .ok up ∧ up.Rcode ≠ RcodeSuccess) ∨
      (∃ up, exchange qname i.Upstream = .ok up ∧ up.Rcode = RcodeSuccess ∧
        ∀ rr ∈ up.Answer, rr.isA = false) ∨
      (∃ up, exchange qname i.Upstream = .ok up ∧ up.Rcode = RcodeSuccess ∧
        ∃ rr ∈ up.Answer, rr.isA = true) := by
    cases hex : exchange qname i.Upstream with
    | error err => exact Or.inl ⟨err, rfl⟩
    | ok up =>
      by_cases hrc : up.Rcode = RcodeSuccess
      · by_cases hA : ∃ rr ∈ up.Answer, rr.isA = true
        · exact Or.inr (Or.inr (Or.inr ⟨up, rfl, hrc, hA⟩))
        · refine Or.inr (Or.inr (Or.inl ⟨up, rfl, hrc, fun rr hrr => ?_⟩))
          by_contra hc
          exact hA ⟨rr, hrr, by simpa using hc⟩
      · exact Or.inr (Or.inl ⟨up, rfl, hrc⟩)
  refine ⟨?_, h1, h2, h3, ?_⟩
  · constructor
    · intro herr
      rcases hcases with h | h | h | ⟨up, hex, hrc, hA⟩
      · exact Or.inl h
      · exact Or.inr (Or.inl h)
      · exact Or.inr (Or.inr h)
      · obtain ⟨pre, hdr, a, post, _, _, hres⟩ :=
          resolveUpstream_first_A hex hrc hA
        rw [hres] at herr
        exact absurd rfl herr
    · rintro (⟨err, hex⟩ | ⟨up, hex, hrc⟩ | ⟨up, hex, hrc, hno⟩)
      · rw [h1 err hex]; simp
      · rw [h2 up hex hrc]; simp
      · rw [h3 up hex hrc hno]; simp
  · intro herr
    rcases hcases with ⟨err, hex⟩ | ⟨up, hex, hrc⟩ | ⟨up, hex, hrc, hno⟩ | ⟨up, hex, hrc, hA⟩
    · rw [h1 err hex]
    · rw [h2 up hex hrc]
    · rw [h3 up hex hrc hno]
    · obtain ⟨pre, hdr, a, post, _, _, hres⟩ := resolveUpstream_first_A hex hrc hA
      rw [hres] at herr
      exact absurd rfl herr

/-- C9, at work: a failed exchange returns its own error, a server-failure
response returns the rcode error although it carries an A record, and a
successful response with only a CNAME record returns "no A record found". -/
theorem C9_resolveUpstream_errors_witness :
    resolveUpstream (cfg []) (failing ⟨"i/o timeout"⟩) "foo.example.com." =
      ("", some ⟨"i/o timeout"⟩) ∧
    resolveUpstream (cfg [])
        (answering { Rcode := RcodeServerFailure, Answer := [sampleA "foo.example.com."] })
        "foo.example.com." = ("", some ⟨"DNS query failed with rcode: 2"⟩) ∧
    resolveUpstream (cfg []) (answering { Answer := sampleAnswer.take 1 }) "foo.example.com." =
      ("", some ⟨"no A record found"⟩) :=
  ⟨(C9_resolveUpstream_errors (cfg []) (failing ⟨"i/o timeout"⟩) "foo.example.com.").2.1
      ⟨"i/o timeout"⟩ rfl,
   ((C9_resolveUpstream_errors (cfg [])
      (answering { Rcode := RcodeServerFailure, Answer := [sampleA "foo.example.com."] })
      "foo.example.com.").2.2.1 _ rfl (by decide)).trans (by decide),
   (C9_resolveUpstream_errors (cfg []) (answering { Answer := sampleAnswer.take 1 })
      "foo.example.com.").2.2.2.1 _ rfl rfl (by decide)⟩

/-- C10: `matchesZone` with the zone list `Zs` is true on `N` if and only if
`matchesZone` with the single zone `Z` is true on `N` for some `Z` in `Zs`; so
the result is the same for every permutation of `Zs`, and it is false for the
empty list. -/
theorem C10_any_zone (i : IpToCname) (Zs : List String) (N : String) :
    (matchesZone { i with Zones := Zs } N = true ↔
      ∃ Z ∈ Zs, matchesZone { i with Zones := [Z] } N = true) ∧
    (∀ Zs2 : List String, Zs.Perm Zs2 →
      matchesZone { i with Zones := Zs2 } N = matchesZone { i with Zones := Zs } N) ∧
    matchesZone { i with Zones := [] } N = false := by
  have key : ∀ l : List String, matchesZone { i with Zones := l } N = true ↔
      ∃ Z ∈ l, HasSuffix (ToLower N) (ToLower Z) = true :=
    fun l => matchesZoneLoop_iff N l
  refine ⟨?_, ?_, rfl⟩
  · rw [key]
    simp only [matchesZone_single]
  · intro Zs2 hperm
    rw [Bool.eq_iff_iff, key, key]
    constructor
    · rintro ⟨Z, hZ, h⟩
      exact ⟨Z, hperm.mem_iff.mpr hZ, h⟩
    · rintro ⟨Z, hZ, h⟩
      exact ⟨Z, hperm.mem_iff.mp hZ, h⟩

/-- C10, at work: the mixed zone list of the test table matches `baz.other.com.`
in either order. -/
theorem C10_any_zone_witness :
    matchesZone (cfg ["other.com.", "*.example.com."]) "baz.other.com." =
        matchesZone (cfg ["*.example.com.", "other.com."]) "baz.other.com." ∧
      matchesZone (cfg ["*.example.com.", "other.com."]) "baz.other.com." = true :=
  ⟨(C10_any_zone (cfg []) ["*.example.com.", "other.com."] "baz.other.com.").2.1
      ["other.com.", "*.example.com."] (List.Perm.swap _ _ _),
   (C10_any_zone (cfg []) ["*.example.com.", "other.com."] "baz.other.com.").1.mpr
      ⟨"other.com.", by decide, by decide⟩⟩

/-- C11: `matchesZone` is case-insensitive: when the query names `N` and `N2`
differ only in letter case and the zone lists `Zs` and `Zs2` have the same
length with corresponding patterns differing only in letter case,
`matchesZone` gives the same result on `Zs`, `N` as on `Zs2`, `N2`. -/
theorem C11_case_insensitive (i : IpToCname) (N N2 : String) (Zs Zs2 : List String)
    (hN : differOnlyInCase N N2 = true)
    (hZ : List.Forall₂ (fun Z Z2 => differOnlyInCase Z Z2 = true) Zs Zs2) :
    matchesZone { i with Zones := Zs } N = matchesZone { i with Zones := Zs2 } N2 := by
  simp only [matchesZone]
  induction hZ with
  | nil => rfl
  | cons h _ ih =>
    simp only [matchesZoneLoop]
    rw [ToLower_differOnlyInCase _ _ hN, ToLower_differOnlyInCase _ _ h, ih]

/-- C11, at work: `Foo.Example.COM.` under `EXAMPLE.com.` is matched like
`foo.example.com.` under `example.COM.`, namely matched. -/
theorem C11_case_insensitive_witness :
    matchesZone (cfg ["other.NET.", "EXAMPLE.com."]) "Foo.Example.COM." =
        matchesZone (cfg ["OTHER.net.", "example.COM."]) "foo.example.com." ∧
      matchesZone (cfg ["OTHER.net.", "example.COM."]) "foo.example.com." = true :=
  ⟨C11_case_insensitive (cfg []) "Foo.Example.COM." "foo.example.com."
      ["other.NET.", "EXAMPLE.com."] ["OTHER.net.", "example.COM."] (by decide)
      (List.Forall₂.cons (by decide) (List.Forall₂.cons (by decide) List.Forall₂.nil)),
   by decide⟩

/-- C12: the trailing-dot rule of `transformIP` is idempotent: for every `ip`
and suffix `s` the result ends with `.`, and for every `s` that does not end
with `.` the suffix `s ++ "."` gives the same result as the suffix `s`. -/
theorem C12_trailing_dot_idempotent (i : IpToCname) (ip s : String) :
    (transformIP { i with TargetSuffix := s } ip).data.getLast? = some '.' ∧
      (s.data.getLast? ≠ some '.' →
        transformIP { i with TargetSuffix := s ++ "." } ip =
          transformIP { i with TargetSuffix := s } ip) := by
  constructor
  · rw [transformIP_data]
    by_cases h : s.data.getLast? = some '.'
    · simp only [h, if_true, List.append_nil]
      exact (getLast?_dashed_append ip.data s.data).mpr h
    · simp only [h, if_false]
      simp
  · intro h
    apply String.ext
    rw [transformIP_data, transformIP_data]
    have hd : (s ++ ".").data.getLast? = some '.' := by
      simp [String.data_append]
    simp only [h, hd, if_true, if_false, List.append_nil, String.data_append]
    simp

/-- C12, at work: the default suffix with and without a final dot gives
`10-0-123-45-via-9.shark-perch.ts.net.`. -/
theorem C12_trailing_dot_idempotent_witness :
    transformIP { TargetSuffix := "-via-9.shark-perch.ts.net" ++ "." } "10.0.123.45" =
        transformIP { TargetSuffix := "-via-9.shark-perch.ts.net" } "10.0.123.45" ∧
      transformIP { TargetSuffix := "-via-9.shark-perch.ts.net" } "10.0.123.45" =
        "10-0-123-45-via-9.shark-perch.ts.net." :=
  ⟨(C12_trailing_dot_idempotent {} "10.0.123.45" "-via-9.shark-perch.ts.net").2 (by decide),
   by decide⟩

/-- C13: `parseConfig` returns an error whenever no directive instance supplies
a zone argument, so every instance it returns has a non-empty zone list. -/
theorem C13_zones_required (c : List Directive) :
    ((∀ d ∈ c, d.args = []) → ∃ err, parseConfig c = .error err) ∧
      (∀ i, parseConfig c = .ok i → i.Zones ≠ []) := by
  constructor
  · intro hc
    cases hl : parseConfigLoop
        { TargetSuffix := "-via-9.shark-perch.ts.net", Upstream := "100.100.100.100:53" } c with
    | error err => exact ⟨err, parseConfig_loop_error c err hl⟩
    | ok i2 =>
      have hz : i2.Zones = [] := parseConfigLoop_no_args c _ i2 hc hl
      refine ⟨⟨"no zones specified"⟩, ?_⟩
      rw [parseConfig_loop_ok c i2 hl, hz]
      rfl
  · intro i h
    cases hl : parseConfigLoop
        { TargetSuffix := "-via-9.shark-perch.ts.net", Upstream := "100.100.100.100:53" } c with
    | error err =>
      rw [parseConfig_loop_error c err hl] at h
      cases h
    | ok i2 =>
      rw [parseConfig_loop_ok c i2 hl] at h
      by_cases hz : i2.Zones.length = 0
      · rw [if_pos hz] at h
        cases h
      · rw [if_neg hz] at h
        cases h
        exact fun e => hz (by rw [e]; rfl)

/-- C13, at work: a directive with a block but no zone argument is rejected
with "no zones specified". -/
theorem C13_zones_required_witness :
    (∃ err, parseConfig [{ args := [], block := [["upstream", "1.1.1.1:53"]] }] = .error err) ∧
      (parseConfig [{ args := [], block := [["upstream", "1.1.1.1:53"]] }]).toOption.isNone =
        true :=
  ⟨(C13_zones_required [{ args := [], block := [["upstream", "1.1.1.1:53"]] }]).1 (by decide),
   by decide⟩

/-- C14: `matchesZone` does not special-case the wildcard marker: it is true on
`N` if and only if for some `Z` in the zone list the whole lower-cased pattern
`Z` is a string suffix of lower-cased `N`; for a pattern `"*." ++ Z` that is
the suffix made of the characters `*`, `.` and then lower-cased `Z`. -/
theorem C14_literal_suffix (i : IpToCname) (Zs : List String) (N : String) :
    (matchesZone { i with Zones := Zs } N = true ↔
      ∃ Z ∈ Zs, (ToLower Z).data <:+ (ToLower N).data) ∧
    (∀ Z, matchesZone { i with Zones := ["*." ++ Z] } N = true ↔
      ('*' :: '.' :: (ToLower Z).data) <:+ (ToLower N).data) := by
  constructor
  · simp only [matchesZone, matchesZoneLoop_iff, HasSuffix_iff]
  · intro Z
    rw [matchesZone_single, HasSuffix_iff, ToLower_wildcard_data]

/-- C14, at work: `*.example.com.` matches the name `x*.example.com.`, which
carries the marker literally. -/
theorem C14_literal_suffix_witness :
    matchesZone (cfg ["*.example.com."]) "x*.example.com." = true :=
  ((C14_literal_suffix (cfg []) ["*.example.com."] "x*.example.com.").2 "example.com.").mpr
    ⟨['x'], by decide⟩

/-- C15 fails on the code: on the test table the literal suffix comparison of
`matchesZone` and the reference matcher differ exactly on the two pairs with the
wildcard pattern and a strict subdomain, where `matchesZone` is false and the
reference matcher (like the test table) is true; on the other five pairs they
agree. -/
theorem C15_test_table_divergence :
    testTable.filter (fun p => matchesZone (cfg [p.1]) p.2 != referenceMatches p.1 p.2) =
        [("*.example.com.", "foo.example.com."), ("*.example.com.", "baz.foo.example.com.")] ∧
      matchesZone (cfg ["*.example.com."]) "foo.example.com." = false ∧
      referenceMatches "*.example.com." "foo.example.com." = true ∧
      matchesZone (cfg ["*.example.com."]) "baz.foo.example.com." = false ∧
      referenceMatches "*.example.com." "baz.foo.example.com." = true := by
  decide

/-- C16: for a fixed target suffix `transformIP` is injective on addresses
without a `-`: equal results come from equal addresses.  The dotted-decimal
string of an IPv4 address has no `-`, so this holds in particular for any two
resolved addresses. -/
theorem C16_transformIP_injective (i : IpToCname) :
    (∀ ip1 ip2 : String, '-' ∉ ip1.data → '-' ∉ ip2.data →
      transformIP i ip1 = transformIP i ip2 → ip1 = ip2) ∧
    (∀ a b : IPv4, transformIP i a.String = transformIP i b.String → a.String = b.String) := by
  have main : ∀ ip1 ip2 : String, '-' ∉ ip1.data → '-' ∉ ip2.data →
      transformIP i ip1 = transformIP i ip2 → ip1 = ip2 := by
    intro ip1 ip2 h1 h2 h
    have hd := congrArg String.data h
    rw [transformIP_data, transformIP_data, List.append_assoc, List.append_assoc] at hd
    exact String.ext (map_dotToDash_injOn _ _ h1 h2 (List.append_cancel_right hd))
  exact ⟨main, fun a b h => main _ _ (IPv4_String_no_dash a) (IPv4_String_no_dash b) h⟩

/-- C16, at work: `10.0.123.45` and `10.0.12.345` have different targets. -/
theorem C16_transformIP_injective_witness :
    transformIP (cfg []) "10.0.123.45" ≠ transformIP (cfg []) "10.0.12.345" :=
  fun h => absurd
    ((C16_transformIP_injective (cfg [])).1 "10.0.123.45" "10.0.12.345"
      (by decide) (by decide) h)
    (by decide)

/-- C17: a non-empty zone pattern `Z` that does not end with `.` matches no
query name `N` that ends with `.`; `parseConfig` stores such a zone argument as
it is written, and the instance it returns never matches such a name. -/
theorem C17_undotted_zone_never_matches (i : IpToCname) (Z N : String)
    (hZ : Z.data ≠ []) (hZd : Z.data.getLast? ≠ some '.')
    (hN : N.data.getLast? = some '.') :
    matchesZone { i with Zones := [Z] } N = false ∧
      ∃ j, parseConfig [{ args := [Z] }] = .ok j ∧ j.Zones = [Z] ∧
        matchesZone j N = false := by
  have main : ∀ k : IpToCname, matchesZone { k with Zones := [Z] } N = false := by
    intro k
    rw [matchesZone_single, HasSuffix_eq_false_iff]
    rintro ⟨t, ht⟩
    have hne : (ToLower Z).data ≠ [] := by
      rw [ToLower_data]
      simpa using hZ
    have hlast : (ToLower Z).data.getLast? = some '.' := by
      rw [← List.getLast?_append_of_ne_nil t hne, ht, ToLower_data, List.getLast?_map, hN]
      rfl
    rw [ToLower_data, List.getLast?_map] at hlast
    cases hz : Z.data.getLast? with
    | none => rw [hz] at hlast; cases hlast
    | some c =>
      rw [hz] at hlast
      have hc : toLowerRune c = '.' := by simpa using hlast
      rw [toLowerRune_eq_dot c hc] at hz
      exact hZd hz
  refine ⟨main i, ?_⟩
  refine ⟨{ Zones := [Z], TargetSuffix := "-via-9.shark-perch.ts.net",
            Upstream := "100.100.100.100:53" }, ?_, rfl,
    main { TargetSuffix := "-via-9.shark-perch.ts.net", Upstream := "100.100.100.100:53" }⟩
  simp [parseConfig, parseConfigLoop, parseBlock]

/-- C17, at work: the zone `example.com` (no final dot) does not match
`foo.example.com.` nor `example.com.`. -/
theorem C17_undotted_zone_never_matches_witness :
    matchesZone (cfg ["example.com"]) "foo.example.com." = false ∧
      matchesZone (cfg ["example.com"]) "example.com." = false :=
  ⟨(C17_undotted_zone_never_matches (cfg []) "example.com" "foo.example.com."
      (by decide) (by decide) (by decide)).1,
   (C17_undotted_zone_never_matches (cfg []) "example.com" "example.com."
      (by decide) (by decide) (by decide)).1⟩

/-- C18: `matchesZone` is closed under prepending: if it is true on `N` it is
true on `P ++ N` for every string `P`, so every name below a matching name
matches too. -/
theorem C18_prepend_closed (i : IpToCname) (N P : String)
    (h : matchesZone i N = true) : matchesZone i (P ++ N) = true := by
  unfold matchesZone at h ⊢
  rw [matchesZoneLoop_iff] at h ⊢
  obtain ⟨Z, hZ, hs⟩ := h
  refine ⟨Z, hZ, ?_⟩
  rw [HasSuffix_iff] at hs ⊢
  rw [ToLower_append_data]
  exact hs.trans (List.suffix_append _ _)

/-- C18, at work: `example.com.` matches under the zone `example.com.`, hence
so does `www.` put in front of it. -/
theorem C18_prepend_closed_witness :
    matchesZone (cfg ["example.com."]) ("www." ++ "example.com.") = true :=
  C18_prepend_closed (cfg ["example.com."]) "example.com." "www." (by decide)

end A2cname
